import Mathlib

/-!
Shallow embedding of src/build_plugin.py (TLS-Social-Media build orchestrator).

The script orchestrates a three-stage pipeline (install, build, package) over
external package-manager commands (pnpm with npm as fallback), then discovers
and renames build artifacts in an output directory, and finally exits with
code 0 on success and 1 on failure.

The embedding models the environment (filesystem facts and the outcome of each
external command invocation) as an explicit `Env` value, and each Python
method as a Lean function over it.  External side effects are captured as a
trace of invocations; the output directory is a listing of file names, updated
by the rename step.  Exceptions are modelled with `Except`: a Python function
that can let an exception escape returns `Except Exn _`, while a function that
catches everything returns a plain value.
-/

namespace BuildPlugin

/-- Outcome of invoking one external process (`subprocess.run`):
it either terminates within the timeout with some exit code, or the
invocation raises `subprocess.TimeoutExpired`, `FileNotFoundError`
(executable absent), or some other exception. -/
inductive CmdOutcome where
  | exits (code : Int)
  | timedOut
  | notFound
  | raised
deriving DecidableEq, Repr

/-- A Python exception escaping a function of the script:
`subprocess.TimeoutExpired` or any other exception. -/
inductive Exn where
  | timeoutExpired
  | other
deriving DecidableEq, Repr

/-- The specific missing-precondition diagnostic printed by
`check_prerequisites` when it returns `False` (lines 32, 37, 70). -/
inductive Diag where
  | missingProjectDir
  | missingPackageJson
  | missingPackageManager
deriving DecidableEq, Repr

/-- One external process invocation recorded in the trace: a package-manager
version query (`pnpm --version` / `npm --version`, no working directory set),
or a pipeline command run with an explicit working directory (`cwd`). -/
inductive Invocation where
  | query (tool : String)
  | cmd (argv : List String) (cwd : String)
deriving DecidableEq, Repr

/-- The environment of one run: whether the project directory and the
manifest (package.json) exist, the outcome of the two version queries, the
outcome of each pipeline command (keyed by its argv), and the listing of the
output directory (`none` when the directory does not exist) as it stands when
artifact discovery runs. -/
structure Env where
  projDirExists : Bool
  packageJsonExists : Bool
  pnpmVer : CmdOutcome
  npmVer : CmdOutcome
  pipelineCmd : List String → CmdOutcome
  outputDir : Option (List String)

/-- The `PluginBuilder` object: its only input datum is the resolved project
directory path (`self.project_dir`, line 14-20); `self.package_json` and
`self.output_dir` are derived from it. -/
structure PluginBuilder where
  project_dir : String

/-- The npm half of the package-manager check (lines 55-68): `npm --version`
with a 5 second timeout, only `FileNotFoundError` caught; exit code 0 returns
`True`, otherwise control falls through to the final diagnostic and `False`
(lines 70-71). A timeout or other exception escapes. -/
def npmCheck (env : Env) : Except Exn Bool × Option Diag :=
  match env.npmVer with
  | .exits c => if c = 0 then (.ok true, none) else (.ok false, some .missingPackageManager)
  | .notFound => (.ok false, some .missingPackageManager)
  | .timedOut => (.error .timeoutExpired, none)
  | .raised => (.error .other, none)

/-- `PluginBuilder.check_prerequisites` (lines 26-71): checks the project
directory, then package.json, then queries `pnpm --version` (only
`FileNotFoundError` caught; a non-zero exit also falls through to the npm
check), then `npm --version`.  Returns the boolean result, the list of
version queries actually executed, and the missing-precondition diagnostic
printed when the result is `False`. -/
def check_prerequisites (env : Env) :
    Except Exn Bool × List Invocation × Option Diag :=
  if env.projDirExists = false then (.ok false, [], some .missingProjectDir)
  else if env.packageJsonExists = false then (.ok false, [], some .missingPackageJson)
  else
    match env.pnpmVer with
    | .exits c =>
      if c = 0 then (.ok true, [.query "pnpm"], none)
      else
        let (r, d) := npmCheck env
        (r, [.query "pnpm", .query "npm"], d)
    | .notFound =>
        let (r, d) := npmCheck env
        (r, [.query "pnpm", .query "npm"], d)
    | .timedOut => (.error .timeoutExpired, [.query "pnpm"], none)
    | .raised => (.error .other, [.query "pnpm"], none)

/-- `PluginBuilder.run_command` (lines 73-99): runs a pipeline command with
`cwd = self.project_dir` and a 300 second timeout; returns `True` exactly when
the command terminates with exit code 0.  `subprocess.TimeoutExpired` and
every other exception (including `FileNotFoundError`) are caught and turned
into `False`, so this function is total. -/
def run_command (env : Env) (argv : List String) : Bool :=
  match env.pipelineCmd argv with
  | .exits c => c == 0
  | .timedOut => false
  | .notFound => false
  | .raised => false

/-- Whether a `subprocess.run` invocation settles normally: it either returns
an exit status within the timeout or raises `FileNotFoundError` (the two
outcomes `check_prerequisites` handles); a timeout or any other exception
does not settle and escapes the version-query code (lines 41-68 catch only
`FileNotFoundError`). -/
def CmdOutcome.settles : CmdOutcome → Bool
  | .exits _ => true
  | .notFound => true
  | .timedOut => false
  | .raised => false

/-- The three pipeline stages of `build`: install dependencies, build the
project, package it. -/
inductive Stage where
  | install
  | buildStep
  | package
deriving DecidableEq, Repr

/-- Position of a stage in the fixed pipeline order. -/
def Stage.idx : Stage → Nat
  | .install => 0
  | .buildStep => 1
  | .package => 2

/-- Primary (pnpm) command of each stage (lines 149, 156, 162). -/
def primaryCmd : Stage → List String
  | .install => ["pnpm", "install"]
  | .buildStep => ["pnpm", "build"]
  | .package => ["pnpm", "zip"]

/-- Fallback (npm) command of each stage (lines 151, 157, 163). -/
def fallbackCmd : Stage → List String
  | .install => ["npm", "install"]
  | .buildStep => ["npm", "run", "build"]
  | .package => ["npm", "run", "zip"]

/-- One stage of `build` (the inline pattern at lines 149-164):
try the primary command; if it fails, try the fallback; the stage succeeds if
either does.  Returns the success flag and the invocations executed, each with
`cwd` the project directory. -/
def runStage (env : Env) (cwd : String) (s : Stage) : Bool × List Invocation :=
  if run_command env (primaryCmd s) then
    (true, [.cmd (primaryCmd s) cwd])
  else if run_command env (fallbackCmd s) then
    (true, [.cmd (primaryCmd s) cwd, .cmd (fallbackCmd s) cwd])
  else
    (false, [.cmd (primaryCmd s) cwd, .cmd (fallbackCmd s) cwd])

/-- Whether the file name `s` ends in the extension `suf`: the test performed
by the glob patterns "*.crx" (line 106) and "*.zip" (line 118). -/
def hasSuffix (s suf : String) : Bool := suf.data.isSuffixOf s.data

/-- `PluginBuilder.find_crx_file` (lines 101-110): first file of the output
directory whose name ends in ".crx"; `none` when the directory does not exist
or holds no match. -/
def find_crx_file (dir : Option (List String)) : Option String :=
  match dir with
  | none => none
  | some files => files.find? (fun f => hasSuffix f ".crx")

/-- The fixed target archive name (line 124). -/
def targetZipName : String := "TLS-Social-Media.zip"

/-- `PluginBuilder.rename_zip_file` (lines 112-135): takes the first file of
the output directory ending in ".zip"; if it already has the target name,
nothing happens; otherwise a pre-existing file with the target name is
unlinked and the match is renamed to the target name.  Returns the reported
zip path and the updated directory listing. -/
def rename_zip_file (dir : Option (List String)) :
    Option String × Option (List String) :=
  match dir with
  | none => (none, none)
  | some files =>
    match files.find? (fun f => hasSuffix f ".zip") with
    | none => (none, some files)
    | some oldZip =>
      if oldZip = targetZipName then (some targetZipName, some files)
      else
        let afterUnlink :=
          if files.contains targetZipName then
            files.filter (fun f => f != targetZipName)
          else files
        (some targetZipName,
         some (afterUnlink.map (fun f => if f = oldZip then targetZipName else f)))

/-- The output-directory listing after the conditional unlink step of
`rename_zip_file` (lines 130-132): the pre-existing file with the target name
is removed when present. -/
def afterUnlinkOf (files : List String) : List String :=
  if files.contains targetZipName then files.filter (fun f => f != targetZipName) else files

/-- Result of one run of `PluginBuilder.build`: the boolean result (or an
escaped exception), the trace of external invocations, the final output
directory listing, and the artifact paths the summary prints. -/
structure BuildResult where
  result : Except Exn Bool
  trace : List Invocation
  finalOutputDir : Option (List String)
  zip_file : Option String
  crx_file : Option String

/-- `PluginBuilder.build` (lines 137-211): checks prerequisites (an escaped
exception propagates), then runs the install, build and package stages in
order, aborting with `False` at the first stage where both commands fail; on
success it renames the zip, looks for a crx file, prints the summary and
returns `True`. -/
def build (b : PluginBuilder) (env : Env) : BuildResult :=
  match check_prerequisites env with
  | (.error e, t, _) => ⟨.error e, t, env.outputDir, none, none⟩
  | (.ok false, t, _) => ⟨.ok false, t, env.outputDir, none, none⟩
  | (.ok true, t0, _) =>
    let (ok1, t1) := runStage env b.project_dir .install
    if ok1 = false then ⟨.ok false, t0 ++ t1, env.outputDir, none, none⟩
    else
      let (ok2, t2) := runStage env b.project_dir .buildStep
      if ok2 = false then ⟨.ok false, t0 ++ t1 ++ t2, env.outputDir, none, none⟩
      else
        let (ok3, t3) := runStage env b.project_dir .package
        if ok3 = false then
          ⟨.ok false, t0 ++ t1 ++ t2 ++ t3, env.outputDir, none, none⟩
        else
          let (zf, dir2) := rename_zip_file env.outputDir
          ⟨.ok true, t0 ++ t1 ++ t2 ++ t3, dir2, zf, find_crx_file dir2⟩

/-- `main` (lines 214-226): builds and calls `sys.exit(0 if success else 1)`.
An exception escaping `build` also escapes `main`. -/
def main (b : PluginBuilder) (env : Env) : Except Exn Nat :=
  match (build b env).result with
  | .ok true => .ok 0
  | .ok false => .ok 1
  | .error e => .error e

/-- The exit status of the whole process: the code passed to `sys.exit`, or 1
when an uncaught exception terminates the interpreter. -/
def processExitCode (b : PluginBuilder) (env : Env) : Nat :=
  match main b env with
  | .ok n => n
  | .error _ => 1

/-! ### Concrete fixtures used by witnesses and counterexamples -/

/-- A builder with a concrete project directory. -/
def bW : PluginBuilder := ⟨"/home/user/TLS-Social-Media"⟩

/-- An environment where every precondition holds, every command exits 0 and
the output directory holds one zip and one crx file. -/
def envAllOk : Env :=
  ⟨true, true, .exits 0, .exits 0, fun _ => .exits 0,
   some ["social-media-copilot-1.0.0.zip", "social-media-copilot.crx"]⟩

/-- An environment whose project directory exists but whose manifest
(package.json) is missing. -/
def envNoManifest : Env :=
  ⟨true, false, .exits 0, .exits 0, fun _ => .exits 0, some []⟩

/-- An environment where the pnpm version query hangs past its 5 second
timeout while npm answers with exit status 0. -/
def envQueryTimeout : Env :=
  ⟨true, true, .timedOut, .exits 0, fun _ => .exits 0, none⟩

/-- An environment where the primary install command exits non-zero but every
other command (including the npm fallback) exits 0. -/
def envInstallFallback : Env :=
  ⟨true, true, .exits 0, .exits 0,
   fun argv => if argv = ["pnpm", "install"] then .exits 1 else .exits 0, some []⟩

/-- An environment where both install commands fail (primary exits 1, the
fallback's executable is absent) and everything else would succeed. -/
def envInstallFail : Env :=
  ⟨true, true, .exits 0, .exits 0,
   fun argv =>
     if argv = ["pnpm", "install"] then .exits 1
     else if argv = ["npm", "install"] then .notFound
     else .exits 0,
   some []⟩

/-- An environment where the whole pipeline succeeds but the output directory
is empty: no archive and no installable package is ever produced. -/
def envEmptyOutput : Env :=
  ⟨true, true, .exits 0, .exits 0, fun _ => .exits 0, some []⟩

/-! ### Helper lemmas -/

lemma afterUnlinkOf_eq_of_mem {files : List String} (hct : targetZipName ∈ files) :
    afterUnlinkOf files = files.filter (fun f => f != targetZipName) := by
  unfold afterUnlinkOf
  have hb : files.contains targetZipName = true := by simpa using hct
  rw [hb]
  rfl

lemma afterUnlinkOf_eq_of_not_mem {files : List String} (hct : targetZipName ∉ files) :
    afterUnlinkOf files = files := by
  unfold afterUnlinkOf
  have hb : files.contains targetZipName = false := by simpa using hct
  rw [hb]
  rfl

lemma ne_target_of_mem_afterUnlinkOf (files : List String) :
    ∀ f ∈ afterUnlinkOf files, f ≠ targetZipName := by
  intro f hf
  by_cases hct : targetZipName ∈ files
  · rw [afterUnlinkOf_eq_of_mem hct] at hf
    simp [List.mem_filter] at hf
    exact hf.2
  · rw [afterUnlinkOf_eq_of_not_mem hct] at hf
    intro hfe
    exact hct (hfe ▸ hf)

lemma mem_afterUnlinkOf_iff (files : List String) (f : String) (hf : f ≠ targetZipName) :
    f ∈ afterUnlinkOf files ↔ f ∈ files := by
  by_cases hct : targetZipName ∈ files
  · rw [afterUnlinkOf_eq_of_mem hct]
    simp [List.mem_filter, hf]
  · rw [afterUnlinkOf_eq_of_not_mem hct]

lemma count_afterUnlinkOf (files : List String) (z : String) (hnd : files.Nodup)
    (hmem : z ∈ files) (hzt : z ≠ targetZipName) : (afterUnlinkOf files).count z = 1 := by
  have h1 : (afterUnlinkOf files).count z = files.count z := by
    by_cases hct : targetZipName ∈ files
    · rw [afterUnlinkOf_eq_of_mem hct]
      exact List.count_filter (by simp [hzt])
    · rw [afterUnlinkOf_eq_of_not_mem hct]
  rw [h1]
  exact List.count_eq_one_of_mem hnd hmem

lemma nodup_afterUnlinkOf (files : List String) (hnd : files.Nodup) :
    (afterUnlinkOf files).Nodup := by
  by_cases hct : targetZipName ∈ files
  · rw [afterUnlinkOf_eq_of_mem hct]
    exact hnd.filter _
  · rw [afterUnlinkOf_eq_of_not_mem hct]
    exact hnd

lemma map_rename_facts (l : List String) (z : String)
    (hno : ∀ f ∈ l, f ≠ targetZipName) (hzt : z ≠ targetZipName) :
    (z ∈ l → targetZipName ∈ l.map (fun f => if f = z then targetZipName else f)) ∧
    z ∉ l.map (fun f => if f = z then targetZipName else f) ∧
    (l.count z = 1 →
      (l.map (fun f => if f = z then targetZipName else f)).count targetZipName = 1) := by
  refine ⟨?_, ?_, ?_⟩
  · intro hm
    exact List.mem_map.mpr ⟨z, hm, by simp⟩
  · intro hm
    obtain ⟨f, hf, hgf⟩ := List.mem_map.mp hm
    by_cases hfz : f = z
    · rw [if_pos hfz] at hgf
      exact hzt hgf.symm
    · rw [if_neg hfz] at hgf
      exact hfz hgf
  · intro hcnt
    rw [List.count_eq_countP, List.countP_map]
    have hstep :
        List.countP
          ((fun x => x == targetZipName) ∘ fun f => if f = z then targetZipName else f) l
        = List.countP (fun f => f == z) l := by
      apply List.countP_congr
      intro x hx
      by_cases hfz : x = z
      · simp [hfz]
      · simp [hfz, hno x hx]
    rw [hstep, ← List.count_eq_countP, hcnt]

lemma rename_zip_file_reduced (files : List String) (z : String)
    (hz : files.find? (fun f => hasSuffix f ".zip") = some z)
    (hzt : z ≠ targetZipName) :
    rename_zip_file (some files) =
      (some targetZipName,
       some ((afterUnlinkOf files).map (fun f => if f = z then targetZipName else f))) := by
  simp [rename_zip_file, hz, hzt, afterUnlinkOf]

lemma run_command_eq_false_iff (env : Env) (argv : List String) :
    run_command env argv = false ↔
      (env.pipelineCmd argv = .timedOut ∨ env.pipelineCmd argv = .notFound ∨
       env.pipelineCmd argv = .raised ∨
       ∃ c : Int, c ≠ 0 ∧ env.pipelineCmd argv = .exits c) := by
  cases h : env.pipelineCmd argv <;> simp [run_command, h]

lemma prereq_trace_no_cmd (env : Env) (argv : List String) (c : String) :
    Invocation.cmd argv c ∉ (check_prerequisites env).2.1 := by
  rcases env with ⟨pd, pj, pv, nv, rn, od⟩
  cases pd <;> cases pj <;> cases pv <;> cases nv <;>
    simp [check_prerequisites, npmCheck] <;>
    split_ifs <;> simp

lemma runStage_shape (env : Env) (cwd : String) (s : Stage) :
    (run_command env (primaryCmd s) = true ∧
       runStage env cwd s = (true, [.cmd (primaryCmd s) cwd])) ∨
    (run_command env (primaryCmd s) = false ∧
       runStage env cwd s = (run_command env (fallbackCmd s),
         [.cmd (primaryCmd s) cwd, .cmd (fallbackCmd s) cwd])) := by
  cases hp : run_command env (primaryCmd s)
  · right
    refine ⟨rfl, ?_⟩
    cases hf : run_command env (fallbackCmd s) <;> simp [runStage, hp, hf]
  · left
    exact ⟨rfl, by simp [runStage, hp]⟩

lemma runStage_trace_cwd (env : Env) (cwd : String) (s : Stage) :
    ∀ (argv : List String) (c : String),
      Invocation.cmd argv c ∈ (runStage env cwd s).2 → c = cwd := by
  rcases runStage_shape env cwd s with ⟨_, hsh⟩ | ⟨_, hsh⟩ <;> rw [hsh] <;>
    intro argv c h <;> simp at h
  · exact h.2
  · rcases h with ⟨_, h⟩ | ⟨_, h⟩ <;> exact h

lemma primaryCmd_mem_runStage (env : Env) (cwd : String) (s : Stage) :
    Invocation.cmd (primaryCmd s) cwd ∈ (runStage env cwd s).2 := by
  rcases runStage_shape env cwd s with ⟨_, hsh⟩ | ⟨_, hsh⟩ <;> rw [hsh] <;> simp

lemma build_main_cases (b : PluginBuilder) (env : Env) :
    (∃ e t0 d0, check_prerequisites env = (.error e, t0, d0) ∧
        build b env = ⟨.error e, t0, env.outputDir, none, none⟩) ∨
    (∃ t0 d0, check_prerequisites env = (.ok false, t0, d0) ∧
        build b env = ⟨.ok false, t0, env.outputDir, none, none⟩) ∨
    (∃ t0 d0, check_prerequisites env = (.ok true, t0, d0) ∧
      (((runStage env b.project_dir .install).1 = false ∧
         build b env = ⟨.ok false, t0 ++ (runStage env b.project_dir .install).2,
           env.outputDir, none, none⟩) ∨
       ((runStage env b.project_dir .install).1 = true ∧
        (runStage env b.project_dir .buildStep).1 = false ∧
         build b env = ⟨.ok false,
           t0 ++ (runStage env b.project_dir .install).2 ++
             (runStage env b.project_dir .buildStep).2, env.outputDir, none, none⟩) ∨
       ((runStage env b.project_dir .install).1 = true ∧
        (runStage env b.project_dir .buildStep).1 = true ∧
        (runStage env b.project_dir .package).1 = false ∧
         build b env = ⟨.ok false,
           t0 ++ (runStage env b.project_dir .install).2 ++
             (runStage env b.project_dir .buildStep).2 ++
             (runStage env b.project_dir .package).2, env.outputDir, none, none⟩) ∨
       ((runStage env b.project_dir .install).1 = true ∧
        (runStage env b.project_dir .buildStep).1 = true ∧
        (runStage env b.project_dir .package).1 = true ∧
         build b env = ⟨.ok true,
           t0 ++ (runStage env b.project_dir .install).2 ++
             (runStage env b.project_dir .buildStep).2 ++
             (runStage env b.project_dir .package).2,
           (rename_zip_file env.outputDir).2, (rename_zip_file env.outputDir).1,
           find_crx_file (rename_zip_file env.outputDir).2⟩))) := by
  rcases hcp : check_prerequisites env with ⟨r, t0, d0⟩
  rcases r with e | x
  · exact Or.inl ⟨e, t0, d0, rfl, by simp [build, hcp]⟩
  · cases x
    · exact Or.inr (Or.inl ⟨t0, d0, rfl, by simp [build, hcp]⟩)
    · refine Or.inr (Or.inr ⟨t0, d0, rfl, ?_⟩)
      rcases h1 : runStage env b.project_dir .install with ⟨ok1, t1⟩
      cases ok1
      · exact Or.inl ⟨rfl, by simp [build, hcp, h1]⟩
      · rcases h2 : runStage env b.project_dir .buildStep with ⟨ok2, t2⟩
        cases ok2
        · exact Or.inr (Or.inl ⟨rfl, rfl, by simp [build, hcp, h1, h2]⟩)
        · rcases h3 : runStage env b.project_dir .package with ⟨ok3, t3⟩
          cases ok3
          · exact Or.inr (Or.inr (Or.inl
              ⟨rfl, rfl, rfl, by simp [build, hcp, h1, h2, h3]⟩))
          · refine Or.inr (Or.inr (Or.inr ⟨rfl, rfl, rfl, ?_⟩))
            rcases hrn : rename_zip_file env.outputDir with ⟨zf, dir2⟩
            simp [build, hcp, h1, h2, h3, hrn]

lemma prereq_ok_of_settles (env : Env)
    (hp : env.pnpmVer.settles = true) (hn : env.npmVer.settles = true) :
    ∃ (x : Bool) (t : List Invocation) (d : Option Diag),
      check_prerequisites env = (.ok x, t, d) := by
  rcases env with ⟨pd, pj, pv, nv, rn, od⟩
  cases pv <;> cases nv <;> simp [CmdOutcome.settles] at hp hn <;>
    cases pd <;> cases pj <;>
    simp [check_prerequisites, npmCheck] <;>
    split_ifs <;>
    first
      | exact Or.inl ⟨_, _, rfl⟩
      | exact Or.inr ⟨_, _, rfl⟩
      | exact Or.inl rfl
      | exact Or.inr rfl

/-! ### Theorems -/

/-- C1: with the project directory present but the manifest missing, `build`
returns `False` (and the process exits 1) without having invoked any external
command: the trace is empty, so neither a version query nor an
install/build/package command ran. -/
theorem missing_manifest_runs_no_command (b : PluginBuilder) (env : Env)
    (hdir : env.projDirExists = true) (hman : env.packageJsonExists = false) :
    build b env = ⟨.ok false, [], env.outputDir, none, none⟩ ∧
    processExitCode b env = 1 := by
  have hcp : check_prerequisites env = (.ok false, [], some .missingPackageJson) := by
    simp [check_prerequisites, hdir, hman]
  constructor
  · simp [build, hcp]
  · simp [processExitCode, main, build, hcp]

/-- Witness for C1 at a concrete environment. -/
theorem missing_manifest_runs_no_command_witness :
    build bW envNoManifest = ⟨.ok false, [], some [], none, none⟩ ∧
    processExitCode bW envNoManifest = 1 :=
  missing_manifest_runs_no_command bW envNoManifest rfl rfl

/-- C6: when the output directory does not exist, or exists without a ".crx"
(resp. ".zip") file, artifact discovery and the rename step report nothing
found, change nothing and are total (no exception is modelled because the
source cannot raise on these paths). -/
theorem discovery_missing_artifacts :
    find_crx_file none = none ∧
    rename_zip_file none = (none, none) ∧
    (∀ files : List String, (∀ f ∈ files, hasSuffix f ".crx" = false) →
      find_crx_file (some files) = none) ∧
    (∀ files : List String, (∀ f ∈ files, hasSuffix f ".zip" = false) →
      rename_zip_file (some files) = (none, some files)) := by
  refine ⟨rfl, rfl, ?_, ?_⟩
  · intro files h
    simp only [find_crx_file, List.find?_eq_none]
    intro f hf
    simp [h f hf]
  · intro files h
    have hn : files.find? (fun f => hasSuffix f ".zip") = none := by
      simp only [List.find?_eq_none]
      intro f hf
      simp [h f hf]
    simp [rename_zip_file, hn]

/-- Witness for C6 at a concrete directory listing. -/
theorem discovery_missing_artifacts_witness :
    find_crx_file (some ["README.md"]) = none ∧
    rename_zip_file (some ["README.md"]) = (none, some ["README.md"]) :=
  ⟨discovery_missing_artifacts.2.2.1 ["README.md"] (by decide),
   discovery_missing_artifacts.2.2.2 ["README.md"] (by decide)⟩

/-- C7: the process exit code is 0 exactly when `build` returned `True` and
is 1 otherwise (on a run failure, or when an uncaught exception ends the
interpreter); the script's own `sys.exit` call only ever passes 0 or 1. -/
theorem exit_code_zero_or_one (b : PluginBuilder) (env : Env) :
    (processExitCode b env = 0 ∨ processExitCode b env = 1) ∧
    (processExitCode b env = 0 ↔ (build b env).result = .ok true) ∧
    (∀ n : Nat, main b env = .ok n → n = 0 ∨ n = 1) := by
  unfold processExitCode main
  rcases hr : (build b env).result with e | v
  · simp
  · cases v <;> simp

/-- Witness for C7: the third conjunct applied at a successful concrete run. -/
theorem exit_code_zero_or_one_witness :
    main bW envAllOk = .ok 0 ∧ (0 = 0 ∨ 0 = 1) :=
  ⟨rfl, (exit_code_zero_or_one bW envAllOk).2.2 0 rfl⟩

/-- C2: for a pipeline stage the run has reached (prerequisites passed and
every earlier stage succeeded), the primary command fails exactly when it
exits non-zero, times out, its executable is absent, or another exception is
raised; whenever the primary fails the fallback is invoked; if the fallback
succeeds the run proceeds (the next stage's primary command is invoked, resp.
the run ends in success after the last stage); if both fail, `build` returns
`False` and no later-stage command ever appears in the trace. -/
theorem stage_fallback_and_abort (b : PluginBuilder) (env : Env) (s : Stage)
    (hpre : (check_prerequisites env).1 = .ok true)
    (hreach : ∀ s2 : Stage, s2.idx < s.idx → (runStage env b.project_dir s2).1 = true) :
    (run_command env (primaryCmd s) = false ↔
      (env.pipelineCmd (primaryCmd s) = .timedOut ∨
       env.pipelineCmd (primaryCmd s) = .notFound ∨
       env.pipelineCmd (primaryCmd s) = .raised ∨
       ∃ c : Int, c ≠ 0 ∧ env.pipelineCmd (primaryCmd s) = .exits c)) ∧
    (run_command env (primaryCmd s) = false →
      Invocation.cmd (fallbackCmd s) b.project_dir ∈ (build b env).trace) ∧
    (run_command env (primaryCmd s) = false → run_command env (fallbackCmd s) = true →
      (∀ s3 : Stage, s3.idx = s.idx + 1 →
        Invocation.cmd (primaryCmd s3) b.project_dir ∈ (build b env).trace) ∧
      (s = .package → (build b env).result = .ok true)) ∧
    ((runStage env b.project_dir s).1 = false →
      (build b env).result = .ok false ∧
      ∀ s3 : Stage, s.idx < s3.idx →
        Invocation.cmd (primaryCmd s3) b.project_dir ∉ (build b env).trace ∧
        Invocation.cmd (fallbackCmd s3) b.project_dir ∉ (build b env).trace) := by
  refine ⟨run_command_eq_false_iff env (primaryCmd s), ?_⟩
  rcases build_main_cases b env with ⟨e, t0, d0, hcp, hb⟩ | ⟨t0, d0, hcp, hb⟩ |
    ⟨t0, d0, hcp, hrest⟩
  · rw [hcp] at hpre
    exact absurd hpre (by simp)
  · rw [hcp] at hpre
    exact absurd hpre (by simp)
  have hq : ∀ (argv : List String) (c : String), Invocation.cmd argv c ∉ t0 := by
    intro argv c
    have h := prereq_trace_no_cmd env argv c
    rw [hcp] at h
    exact h
  cases s
  · -- stage = install
    rcases hrest with ⟨h1, hb⟩ | ⟨h1, h2, hb⟩ | ⟨h1, h2, h3, hb⟩ | ⟨h1, h2, h3, hb⟩
    · rcases runStage_shape env b.project_dir .install with ⟨hp1, hsh1⟩ | ⟨hp1, hsh1⟩
      · rw [hsh1] at h1
        simp at h1
      · refine ⟨?_, ?_, ?_⟩
        · intro _
          rw [hb, hsh1]
          simp [primaryCmd, fallbackCmd]
        · intro _ hf
          rw [hsh1] at h1
          simp at h1
          simp [h1] at hf
        · intro _
          refine ⟨by rw [hb], ?_⟩
          intro s3 hs3
          cases s3 <;> simp [Stage.idx] at hs3 <;>
            rw [hb, hsh1] <;>
            simp [hq, primaryCmd, fallbackCmd]
    · rcases runStage_shape env b.project_dir .install with ⟨hp1, hsh1⟩ | ⟨hp1, hsh1⟩
      · refine ⟨fun hp => absurd hp (by simp [hp1]), fun hp => absurd hp (by simp [hp1]), ?_⟩
        intro hfl
        rw [hsh1] at hfl
        simp at hfl
      · refine ⟨?_, ?_, ?_⟩
        · intro _
          rw [hb, hsh1]
          simp [primaryCmd, fallbackCmd]
        · intro _ _
          refine ⟨?_, by intro h; exact Stage.noConfusion h⟩
          intro s3 hs3
          cases s3 <;> simp [Stage.idx] at hs3
          rcases runStage_shape env b.project_dir .buildStep with ⟨hp2, hsh2⟩ | ⟨hp2, hsh2⟩ <;>
            rw [hb, hsh2] <;> simp [primaryCmd, fallbackCmd]
        · intro hfl
          simp [h1] at hfl
    · rcases runStage_shape env b.project_dir .install with ⟨hp1, hsh1⟩ | ⟨hp1, hsh1⟩
      · refine ⟨fun hp => absurd hp (by simp [hp1]), fun hp => absurd hp (by simp [hp1]), ?_⟩
        intro hfl
        rw [hsh1] at hfl
        simp at hfl
      · refine ⟨?_, ?_, ?_⟩
        · intro _
          rw [hb, hsh1]
          simp [primaryCmd, fallbackCmd]
        · intro _ _
          refine ⟨?_, by intro h; exact Stage.noConfusion h⟩
          intro s3 hs3
          cases s3 <;> simp [Stage.idx] at hs3
          rcases runStage_shape env b.project_dir .buildStep with ⟨hp2, hsh2⟩ | ⟨hp2, hsh2⟩ <;>
            rw [hb, hsh2] <;> simp [primaryCmd, fallbackCmd]
        · intro hfl
          simp [h1] at hfl
    · rcases runStage_shape env b.project_dir .install with ⟨hp1, hsh1⟩ | ⟨hp1, hsh1⟩
      · refine ⟨fun hp => absurd hp (by simp [hp1]), fun hp => absurd hp (by simp [hp1]), ?_⟩
        intro hfl
        rw [hsh1] at hfl
        simp at hfl
      · refine ⟨?_, ?_, ?_⟩
        · intro _
          rw [hb, hsh1]
          simp [primaryCmd, fallbackCmd]
        · intro _ _
          refine ⟨?_, by intro h; exact Stage.noConfusion h⟩
          intro s3 hs3
          cases s3 <;> simp [Stage.idx] at hs3
          rcases runStage_shape env b.project_dir .buildStep with ⟨hp2, hsh2⟩ | ⟨hp2, hsh2⟩ <;>
            rw [hb, hsh2] <;> simp [primaryCmd, fallbackCmd]
        · intro hfl
          simp [h1] at hfl
  · -- stage = buildStep
    rcases hrest with ⟨h1, hb⟩ | ⟨h1, h2, hb⟩ | ⟨h1, h2, h3, hb⟩ | ⟨h1, h2, h3, hb⟩
    · simp [hreach Stage.install (by decide)] at h1
    · rcases runStage_shape env b.project_dir .buildStep with ⟨hp2, hsh2⟩ | ⟨hp2, hsh2⟩
      · rw [hsh2] at h2
        simp at h2
      · refine ⟨?_, ?_, ?_⟩
        · intro _
          rw [hb, hsh2]
          simp [primaryCmd, fallbackCmd]
        · intro _ hf
          rw [hsh2] at h2
          simp at h2
          simp [h2] at hf
        · intro _
          refine ⟨by rw [hb], ?_⟩
          intro s3 hs3
          cases s3 <;> simp [Stage.idx] at hs3
          rcases runStage_shape env b.project_dir .install with ⟨hp1, hsh1⟩ | ⟨hp1, hsh1⟩ <;>
            rw [hb] <;>
            simp [hsh1, hsh2, hq, primaryCmd, fallbackCmd]
    · rcases runStage_shape env b.project_dir .buildStep with ⟨hp2, hsh2⟩ | ⟨hp2, hsh2⟩
      · refine ⟨fun hp => absurd hp (by simp [hp2]), fun hp => absurd hp (by simp [hp2]), ?_⟩
        intro hfl
        simp [h2] at hfl
      · refine ⟨?_, ?_, ?_⟩
        · intro _
          rw [hb, hsh2]
          simp [primaryCmd, fallbackCmd]
        · intro _ _
          refine ⟨?_, by intro h; exact Stage.noConfusion h⟩
          intro s3 hs3
          cases s3 <;> simp [Stage.idx] at hs3
          rcases runStage_shape env b.project_dir .package with ⟨hp3, hsh3⟩ | ⟨hp3, hsh3⟩ <;>
            rw [hb, hsh3] <;> simp [primaryCmd, fallbackCmd]
        · intro hfl
          simp [h2] at hfl
    · rcases runStage_shape env b.project_dir .buildStep with ⟨hp2, hsh2⟩ | ⟨hp2, hsh2⟩
      · refine ⟨fun hp => absurd hp (by simp [hp2]), fun hp => absurd hp (by simp [hp2]), ?_⟩
        intro hfl
        simp [h2] at hfl
      · refine ⟨?_, ?_, ?_⟩
        · intro _
          rw [hb, hsh2]
          simp [primaryCmd, fallbackCmd]
        · intro _ _
          refine ⟨?_, by intro h; exact Stage.noConfusion h⟩
          intro s3 hs3
          cases s3 <;> simp [Stage.idx] at hs3
          rcases runStage_shape env b.project_dir .package with ⟨hp3, hsh3⟩ | ⟨hp3, hsh3⟩ <;>
            rw [hb, hsh3] <;> simp [primaryCmd, fallbackCmd]
        · intro hfl
          simp [h2] at hfl
  · -- stage = package
    rcases hrest with ⟨h1, hb⟩ | ⟨h1, h2, hb⟩ | ⟨h1, h2, h3, hb⟩ | ⟨h1, h2, h3, hb⟩
    · simp [hreach Stage.install (by decide)] at h1
    · simp [hreach Stage.buildStep (by decide)] at h2
    · rcases runStage_shape env b.project_dir .package with ⟨hp3, hsh3⟩ | ⟨hp3, hsh3⟩
      · rw [hsh3] at h3
        simp at h3
      · refine ⟨?_, ?_, ?_⟩
        · intro _
          rw [hb, hsh3]
          simp [primaryCmd, fallbackCmd]
        · intro _ hf
          rw [hsh3] at h3
          simp at h3
          simp [h3] at hf
        · intro _
          refine ⟨by rw [hb], ?_⟩
          intro s3 hs3
          cases s3 <;> simp [Stage.idx] at hs3
    · rcases runStage_shape env b.project_dir .package with ⟨hp3, hsh3⟩ | ⟨hp3, hsh3⟩
      · refine ⟨fun hp => absurd hp (by simp [hp3]), fun hp => absurd hp (by simp [hp3]), ?_⟩
        intro hfl
        simp [h3] at hfl
      · refine ⟨?_, ?_, ?_⟩
        · intro _
          rw [hb, hsh3]
          simp [primaryCmd, fallbackCmd]
        · intro _ _
          refine ⟨?_, fun _ => by rw [hb]⟩
          intro s3 hs3
          cases s3 <;> simp [Stage.idx] at hs3
        · intro hfl
          simp [h3] at hfl

/-- Witness for C2: with the primary install command exiting non-zero and the
fallback succeeding the run reaches the build stage; with both install
commands failing the run returns `False` and the build stage never runs. -/
theorem stage_fallback_and_abort_witness :
    Invocation.cmd ["npm", "install"] bW.project_dir ∈ (build bW envInstallFallback).trace ∧
    Invocation.cmd ["pnpm", "build"] bW.project_dir ∈ (build bW envInstallFallback).trace ∧
    (build bW envInstallFail).result = .ok false ∧
    Invocation.cmd ["pnpm", "build"] bW.project_dir ∉ (build bW envInstallFail).trace := by
  have h1 := stage_fallback_and_abort bW envInstallFallback Stage.install rfl
    (by intro s2 hs2; cases s2 <;> simp [Stage.idx] at hs2)
  have h2 := stage_fallback_and_abort bW envInstallFail Stage.install rfl
    (by intro s2 hs2; cases s2 <;> simp [Stage.idx] at hs2)
  refine ⟨h1.2.1 rfl, (h1.2.2.1 rfl rfl).1 Stage.buildStep rfl, ?_, ?_⟩
  · exact (h2.2.2.2 rfl).1
  · exact ((h2.2.2.2 rfl).2 Stage.buildStep (by decide)).1

/-- C3: when the output directory holds at least one ".zip" file, the first
match is reported renamed to the fixed target name; if the first match
already carries the target name nothing changes; otherwise the result listing
holds the target name exactly once (a distinct pre-existing file with the
target name having been removed before the rename), and the old name is
gone. -/
theorem rename_zip_first_match (files : List String) (hnd : files.Nodup) (z : String)
    (hz : files.find? (fun f => hasSuffix f ".zip") = some z) :
    (rename_zip_file (some files)).1 = some targetZipName ∧
    (z = targetZipName → rename_zip_file (some files) = (some targetZipName, some files)) ∧
    (z ≠ targetZipName →
      ∃ files2, (rename_zip_file (some files)).2 = some files2 ∧
        targetZipName ∈ files2 ∧ z ∉ files2 ∧ files2.count targetZipName = 1) := by
  have hzmem : z ∈ files := List.mem_of_find?_eq_some hz
  by_cases hzt : z = targetZipName
  · subst hzt
    simp [rename_zip_file, hz]
  · have hr := rename_zip_file_reduced files z hz hzt
    obtain ⟨hm1, hm2, hm3⟩ :=
      map_rename_facts (afterUnlinkOf files) z (ne_target_of_mem_afterUnlinkOf files) hzt
    refine ⟨by rw [hr], fun h => absurd h hzt,
      fun _ => ⟨(afterUnlinkOf files).map (fun f => if f = z then targetZipName else f),
        by rw [hr], ?_, hm2, ?_⟩⟩
    · exact hm1 ((mem_afterUnlinkOf_iff files z hzt).mpr hzmem)
    · exact hm3 (count_afterUnlinkOf files z hnd hzmem hzt)

/-- Witness for C3: a directory holding a crx file, an archive `foo.zip` and a
pre-existing target file; the result holds the target exactly once and
`foo.zip` is gone. -/
theorem rename_zip_first_match_witness :
    ∃ files2,
      (rename_zip_file (some ["app.crx", "foo.zip", "TLS-Social-Media.zip"])).2 = some files2 ∧
      targetZipName ∈ files2 ∧ "foo.zip" ∉ files2 ∧ files2.count targetZipName = 1 :=
  (rename_zip_first_match ["app.crx", "foo.zip", "TLS-Social-Media.zip"] (by decide)
    "foo.zip" (by decide)).2.2 (by decide)

/-- Counterexample for C4: the claim that no exception ever escapes fails — a
pnpm version query exceeding its 5 second timeout raises
`subprocess.TimeoutExpired` inside `check_prerequisites`, which catches only
`FileNotFoundError`, so the exception escapes `build` (and `main`). -/
theorem version_query_timeout_escapes :
    (build bW envQueryTimeout).result = Except.error Exn.timeoutExpired := rfl

/-- C4 (amended): provided each package-manager version query settles
(returns an exit status or raises executable-absent), every other failure —
including any pipeline command exiting non-zero, timing out, or raising — is
converted locally into a boolean, no exception escapes, and `main` exits with
0 or 1 accordingly. -/
theorem no_exception_escapes_when_queries_settle (b : PluginBuilder) (env : Env)
    (hp : env.pnpmVer.settles = true) (hn : env.npmVer.settles = true) :
    ∃ x : Bool, (build b env).result = .ok x ∧ main b env = .ok (if x then 0 else 1) := by
  obtain ⟨x, t, d, hcp0⟩ := prereq_ok_of_settles env hp hn
  rcases build_main_cases b env with ⟨e, t0, d0, hcp, hb⟩ | ⟨t0, d0, hcp, hb⟩ |
    ⟨t0, d0, hcp, hrest⟩
  · rw [hcp0] at hcp
    exact absurd hcp (by simp)
  · exact ⟨false, by rw [hb], by simp [main, hb]⟩
  · rcases hrest with ⟨h1, hb⟩ | ⟨h1, h2, hb⟩ | ⟨h1, h2, h3, hb⟩ | ⟨h1, h2, h3, hb⟩
    · exact ⟨false, by rw [hb], by simp [main, hb]⟩
    · exact ⟨false, by rw [hb], by simp [main, hb]⟩
    · exact ⟨false, by rw [hb], by simp [main, hb]⟩
    · exact ⟨true, by rw [hb], by simp [main, hb]⟩

/-- Witness for the amended C4 at a concrete successful environment. -/
theorem no_exception_escapes_when_queries_settle_witness :
    ∃ x : Bool, (build bW envAllOk).result = .ok x ∧
      main bW envAllOk = .ok (if x then 0 else 1) :=
  no_exception_escapes_when_queries_settle bW envAllOk rfl rfl

/-- Counterexample for C5: the claimed equivalence fails when a version query
times out — here the directory and manifest exist and npm would answer the
version query with exit status 0, yet `check_prerequisites` neither returns
`True` nor returns `False`: it raises `subprocess.TimeoutExpired` from the
pnpm query. -/
theorem prereq_check_iff_fails_on_query_timeout :
    envQueryTimeout.projDirExists = true ∧ envQueryTimeout.packageJsonExists = true ∧
    envQueryTimeout.npmVer = CmdOutcome.exits 0 ∧
    (check_prerequisites envQueryTimeout).1 = Except.error Exn.timeoutExpired :=
  ⟨rfl, rfl, rfl, rfl⟩

/-- C5 (amended): provided both version queries settle (exit status or
executable absent; no timeout or other exception), the precondition check
returns `True` exactly when the project directory exists, the manifest exists
inside it, and pnpm or npm answers its version query with exit status 0; on
each failing condition it returns `False` together with the diagnostic naming
the specific missing precondition. -/
theorem prereq_check_characterization (env : Env)
    (hp : env.pnpmVer.settles = true) (hn : env.npmVer.settles = true) :
    ((check_prerequisites env).1 = .ok true ↔
      (env.projDirExists = true ∧ env.packageJsonExists = true ∧
        (env.pnpmVer = .exits 0 ∨ env.npmVer = .exits 0))) ∧
    (env.projDirExists = false →
      check_prerequisites env = (.ok false, [], some .missingProjectDir)) ∧
    (env.projDirExists = true → env.packageJsonExists = false →
      check_prerequisites env = (.ok false, [], some .missingPackageJson)) ∧
    (env.projDirExists = true → env.packageJsonExists = true →
      env.pnpmVer ≠ .exits 0 → env.npmVer ≠ .exits 0 →
      check_prerequisites env =
        (.ok false, [.query "pnpm", .query "npm"], some .missingPackageManager)) := by
  rcases env with ⟨pd, pj, pv, nv, rn, od⟩
  cases pv <;> cases nv <;> simp [CmdOutcome.settles] at hp hn <;>
    cases pd <;> cases pj <;>
    simp [check_prerequisites, npmCheck] <;>
    split_ifs <;>
    simp_all

/-- Witness for the amended C5: success at a fully healthy environment, and
the manifest-missing diagnostic at a concrete environment lacking it. -/
theorem prereq_check_characterization_witness :
    (check_prerequisites envAllOk).1 = .ok true ∧
    check_prerequisites envNoManifest = (.ok false, [], some .missingPackageJson) :=
  ⟨(prereq_check_characterization envAllOk rfl rfl).1.mpr ⟨rfl, rfl, Or.inl rfl⟩,
   (prereq_check_characterization envNoManifest rfl rfl).2.2.1 rfl rfl⟩

/-- C8: every pipeline command in the trace carries the project directory as
its working directory; a stage's commands appear only when the precondition
check passed and every earlier stage succeeded; and the primary commands of
the stages that ran occur in the trace in the fixed order install, build,
package (as a sublist). -/
theorem stages_in_order_with_project_cwd (b : PluginBuilder) (env : Env) :
    (∀ (argv : List String) (c : String),
       Invocation.cmd argv c ∈ (build b env).trace → c = b.project_dir) ∧
    (∀ s : Stage,
       (Invocation.cmd (primaryCmd s) b.project_dir ∈ (build b env).trace ∨
        Invocation.cmd (fallbackCmd s) b.project_dir ∈ (build b env).trace) →
       (check_prerequisites env).1 = .ok true ∧
       ∀ s2 : Stage, s2.idx < s.idx → (runStage env b.project_dir s2).1 = true) ∧
    (Invocation.cmd (primaryCmd .buildStep) b.project_dir ∈ (build b env).trace →
       List.Sublist
         [Invocation.cmd (primaryCmd .install) b.project_dir,
          Invocation.cmd (primaryCmd .buildStep) b.project_dir] (build b env).trace) ∧
    (Invocation.cmd (primaryCmd .package) b.project_dir ∈ (build b env).trace →
       List.Sublist
         [Invocation.cmd (primaryCmd .install) b.project_dir,
          Invocation.cmd (primaryCmd .buildStep) b.project_dir,
          Invocation.cmd (primaryCmd .package) b.project_dir] (build b env).trace) := by
  have hq : ∀ (argv : List String) (c : String),
      Invocation.cmd argv c ∉ (check_prerequisites env).2.1 :=
    fun argv c => prereq_trace_no_cmd env argv c
  rcases build_main_cases b env with ⟨e, t0, d0, hcp, hb⟩ | ⟨t0, d0, hcp, hb⟩ |
    ⟨t0, d0, hcp, hrest⟩
  · rw [hcp] at hq
    refine ⟨?_, ?_, ?_, ?_⟩ <;> rw [hb] <;> simp only
    · intro argv c h
      exact absurd h (hq argv c)
    · intro s hs
      rcases hs with hs | hs <;> exact absurd hs (hq _ _)
    · intro h
      exact absurd h (hq _ _)
    · intro h
      exact absurd h (hq _ _)
  · rw [hcp] at hq
    refine ⟨?_, ?_, ?_, ?_⟩ <;> rw [hb] <;> simp only
    · intro argv c h
      exact absurd h (hq argv c)
    · intro s hs
      rcases hs with hs | hs <;> exact absurd hs (hq _ _)
    · intro h
      exact absurd h (hq _ _)
    · intro h
      exact absurd h (hq _ _)
  · rw [hcp] at hq
    have hok : (check_prerequisites env).1 = .ok true := by rw [hcp]
    rcases hrest with ⟨h1, hb⟩ | ⟨h1, h2, hb⟩ | ⟨h1, h2, h3, hb⟩ | ⟨h1, h2, h3, hb⟩
    · refine ⟨?_, ?_, ?_, ?_⟩
      · intro argv c h
        rw [hb] at h
        simp only [List.mem_append] at h
        rcases h with h | h
        · exact absurd h (hq argv c)
        · exact runStage_trace_cwd env b.project_dir .install argv c h
      · intro s hs
        cases s
        · refine ⟨hok, ?_⟩
          intro s2 h
          cases s2 <;> simp [Stage.idx] at h
        · rw [hb] at hs
          rcases runStage_shape env b.project_dir .install with ⟨_, hsh1⟩ | ⟨_, hsh1⟩ <;>
            simp [hsh1, hq, primaryCmd, fallbackCmd] at hs
        · rw [hb] at hs
          rcases runStage_shape env b.project_dir .install with ⟨_, hsh1⟩ | ⟨_, hsh1⟩ <;>
            simp [hsh1, hq, primaryCmd, fallbackCmd] at hs
      · intro h
        rw [hb] at h
        rcases runStage_shape env b.project_dir .install with ⟨_, hsh1⟩ | ⟨_, hsh1⟩ <;>
          simp [hsh1, hq, primaryCmd, fallbackCmd] at h
      · intro h
        rw [hb] at h
        rcases runStage_shape env b.project_dir .install with ⟨_, hsh1⟩ | ⟨_, hsh1⟩ <;>
          simp [hsh1, hq, primaryCmd, fallbackCmd] at h
    · refine ⟨?_, ?_, ?_, ?_⟩
      · intro argv c h
        rw [hb] at h
        simp only [List.mem_append] at h
        rcases h with (h | h) | h
        · exact absurd h (hq argv c)
        · exact runStage_trace_cwd env b.project_dir .install argv c h
        · exact runStage_trace_cwd env b.project_dir .buildStep argv c h
      · intro s hs
        cases s
        · refine ⟨hok, ?_⟩
          intro s2 h
          cases s2 <;> simp [Stage.idx] at h
        · refine ⟨hok, ?_⟩
          intro s2 h
          cases s2 <;> simp [Stage.idx] at h
          exact h1
        · rw [hb] at hs
          rcases runStage_shape env b.project_dir .install with ⟨_, hsh1⟩ | ⟨_, hsh1⟩ <;>
            rcases runStage_shape env b.project_dir .buildStep with ⟨_, hsh2⟩ | ⟨_, hsh2⟩ <;>
            simp [hsh1, hsh2, hq, primaryCmd, fallbackCmd] at hs
      · intro _
        rw [hb, List.append_assoc]
        refine List.Sublist.trans ?_ (List.sublist_append_right t0 _)
        have hx : List.Sublist
            ([Invocation.cmd (primaryCmd .install) b.project_dir] ++
             [Invocation.cmd (primaryCmd .buildStep) b.project_dir])
            ((runStage env b.project_dir .install).2 ++
              (runStage env b.project_dir .buildStep).2) :=
          List.Sublist.append
            (List.singleton_sublist.mpr (primaryCmd_mem_runStage env b.project_dir .install))
            (List.singleton_sublist.mpr (primaryCmd_mem_runStage env b.project_dir .buildStep))
        simpa using hx
      · intro h
        rw [hb] at h
        rcases runStage_shape env b.project_dir .install with ⟨_, hsh1⟩ | ⟨_, hsh1⟩ <;>
          rcases runStage_shape env b.project_dir .buildStep with ⟨_, hsh2⟩ | ⟨_, hsh2⟩ <;>
          simp [hsh1, hsh2, hq, primaryCmd, fallbackCmd] at h
    · refine ⟨?_, ?_, ?_, ?_⟩
      · intro argv c h
        rw [hb] at h
        simp only [List.mem_append] at h
        rcases h with ((h | h) | h) | h
        · exact absurd h (hq argv c)
        · exact runStage_trace_cwd env b.project_dir .install argv c h
        · exact runStage_trace_cwd env b.project_dir .buildStep argv c h
        · exact runStage_trace_cwd env b.project_dir .package argv c h
      · intro s hs
        cases s
        · refine ⟨hok, ?_⟩
          intro s2 h
          cases s2 <;> simp [Stage.idx] at h
        · refine ⟨hok, ?_⟩
          intro s2 h
          cases s2 <;> simp [Stage.idx] at h
          exact h1
        · refine ⟨hok, ?_⟩
          intro s2 h
          cases s2 <;> simp [Stage.idx] at h
          · exact h1
          · exact h2
      · intro _
        rw [hb, List.append_assoc, List.append_assoc]
        refine List.Sublist.trans ?_ (List.sublist_append_right t0 _)
        have hx : List.Sublist
            ([Invocation.cmd (primaryCmd .install) b.project_dir] ++
             ([Invocation.cmd (primaryCmd .buildStep) b.project_dir] ++ []))
            ((runStage env b.project_dir .install).2 ++
              ((runStage env b.project_dir .buildStep).2 ++
               (runStage env b.project_dir .package).2)) :=
          List.Sublist.append
            (List.singleton_sublist.mpr (primaryCmd_mem_runStage env b.project_dir .install))
            (List.Sublist.append
              (List.singleton_sublist.mpr
                (primaryCmd_mem_runStage env b.project_dir .buildStep))
              (List.nil_sublist _))
        simpa using hx
      · intro _
        rw [hb, List.append_assoc, List.append_assoc]
        refine List.Sublist.trans ?_ (List.sublist_append_right t0 _)
        have hx : List.Sublist
            ([Invocation.cmd (primaryCmd .install) b.project_dir] ++
             ([Invocation.cmd (primaryCmd .buildStep) b.project_dir] ++
              [Invocation.cmd (primaryCmd .package) b.project_dir]))
            ((runStage env b.project_dir .install).2 ++
              ((runStage env b.project_dir .buildStep).2 ++
               (runStage env b.project_dir .package).2)) :=
          List.Sublist.append
            (List.singleton_sublist.mpr (primaryCmd_mem_runStage env b.project_dir .install))
            (List.Sublist.append
              (List.singleton_sublist.mpr
                (primaryCmd_mem_runStage env b.project_dir .buildStep))
              (List.singleton_sublist.mpr
                (primaryCmd_mem_runStage env b.project_dir .package)))
        simpa using hx
    · refine ⟨?_, ?_, ?_, ?_⟩
      · intro argv c h
        rw [hb] at h
        simp only [List.mem_append] at h
        rcases h with ((h | h) | h) | h
        · exact absurd h (hq argv c)
        · exact runStage_trace_cwd env b.project_dir .install argv c h
        · exact runStage_trace_cwd env b.project_dir .buildStep argv c h
        · exact runStage_trace_cwd env b.project_dir .package argv c h
      · intro s hs
        cases s
        · refine ⟨hok, ?_⟩
          intro s2 h
          cases s2 <;> simp [Stage.idx] at h
        · refine ⟨hok, ?_⟩
          intro s2 h
          cases s2 <;> simp [Stage.idx] at h
          exact h1
        · refine ⟨hok, ?_⟩
          intro s2 h
          cases s2 <;> simp [Stage.idx] at h
          · exact h1
          · exact h2
      · intro _
        rw [hb, List.append_assoc, List.append_assoc]
        refine List.Sublist.trans ?_ (List.sublist_append_right t0 _)
        have hx : List.Sublist
            ([Invocation.cmd (primaryCmd .install) b.project_dir] ++
             ([Invocation.cmd (primaryCmd .buildStep) b.project_dir] ++ []))
            ((runStage env b.project_dir .install).2 ++
              ((runStage env b.project_dir .buildStep).2 ++
               (runStage env b.project_dir .package).2)) :=
          List.Sublist.append
            (List.singleton_sublist.mpr (primaryCmd_mem_runStage env b.project_dir .install))
            (List.Sublist.append
              (List.singleton_sublist.mpr
                (primaryCmd_mem_runStage env b.project_dir .buildStep))
              (List.nil_sublist _))
        simpa using hx
      · intro _
        rw [hb, List.append_assoc, List.append_assoc]
        refine List.Sublist.trans ?_ (List.sublist_append_right t0 _)
        have hx : List.Sublist
            ([Invocation.cmd (primaryCmd .install) b.project_dir] ++
             ([Invocation.cmd (primaryCmd .buildStep) b.project_dir] ++
              [Invocation.cmd (primaryCmd .package) b.project_dir]))
            ((runStage env b.project_dir .install).2 ++
              ((runStage env b.project_dir .buildStep).2 ++
               (runStage env b.project_dir .package).2)) :=
          List.Sublist.append
            (List.singleton_sublist.mpr (primaryCmd_mem_runStage env b.project_dir .install))
            (List.Sublist.append
              (List.singleton_sublist.mpr
                (primaryCmd_mem_runStage env b.project_dir .buildStep))
              (List.singleton_sublist.mpr
                (primaryCmd_mem_runStage env b.project_dir .package)))
        simpa using hx

/-- Witness for C8: in a fully successful run the three primary commands
occur in pipeline order. -/
theorem stages_in_order_with_project_cwd_witness :
    List.Sublist
      [Invocation.cmd ["pnpm", "install"] bW.project_dir,
       Invocation.cmd ["pnpm", "build"] bW.project_dir,
       Invocation.cmd ["pnpm", "zip"] bW.project_dir] (build bW envAllOk).trace :=
  (stages_in_order_with_project_cwd bW envAllOk).2.2.2 (by decide)

/-- C9: once the precondition check and all three stages succeed, `build`
returns `True` and the process exits 0, whatever the output directory holds —
the discovery results influence only the printed summary, never the exit
status. -/
theorem success_independent_of_artifacts (b : PluginBuilder) (env : Env)
    (hok : (check_prerequisites env).1 = .ok true)
    (hst : ∀ s : Stage, (runStage env b.project_dir s).1 = true) :
    (build b env).result = .ok true ∧ processExitCode b env = 0 := by
  rcases build_main_cases b env with ⟨e, t0, d0, hcp, hb⟩ | ⟨t0, d0, hcp, hb⟩ |
    ⟨t0, d0, hcp, hrest⟩
  · rw [hcp] at hok
    exact absurd hok (by simp)
  · rw [hcp] at hok
    exact absurd hok (by simp)
  · rcases hrest with ⟨h1, hb⟩ | ⟨h1, h2, hb⟩ | ⟨h1, h2, h3, hb⟩ | ⟨h1, h2, h3, hb⟩
    · simp [hst .install] at h1
    · simp [hst .buildStep] at h2
    · simp [hst .package] at h3
    · exact ⟨by rw [hb], by simp [processExitCode, main, hb]⟩

/-- Witness for C9: a successful run over an empty output directory — no
archive and no crx exist, yet the exit code is 0. -/
theorem success_independent_of_artifacts_witness :
    (build bW envEmptyOutput).result = .ok true ∧
    processExitCode bW envEmptyOutput = 0 ∧
    (build bW envEmptyOutput).zip_file = none ∧
    (build bW envEmptyOutput).crx_file = none := by
  have h := success_independent_of_artifacts bW envEmptyOutput rfl
    (fun s => by cases s <;> rfl)
  exact ⟨h.1, h.2, rfl, rfl⟩

/-- C10: the rename step's effect on the output directory is confined to the
first archive match and a pre-existing file with the target name: membership
of every other name is untouched, no name other than the target is ever
introduced, and distinctness of the listing is preserved. -/
theorem rename_zip_frame (files : List String) (z : String)
    (hz : files.find? (fun f => hasSuffix f ".zip") = some z) :
    ∃ files2, (rename_zip_file (some files)).2 = some files2 ∧
      (∀ f : String, f ≠ targetZipName → f ≠ z → (f ∈ files2 ↔ f ∈ files)) ∧
      (∀ f ∈ files2, f = targetZipName ∨ f ∈ files) ∧
      (files.Nodup → files2.Nodup) := by
  by_cases hzt : z = targetZipName
  · subst hzt
    exact ⟨files, by simp [rename_zip_file, hz], fun f _ _ => Iff.rfl,
      fun f hf => Or.inr hf, id⟩
  · have hr := rename_zip_file_reduced files z hz hzt
    refine ⟨(afterUnlinkOf files).map (fun f => if f = z then targetZipName else f),
      by rw [hr], ?_, ?_, ?_⟩
    · intro f hft hfz
      constructor
      · intro hm
        obtain ⟨g, hg, hgf⟩ := List.mem_map.mp hm
        by_cases hgz : g = z
        · rw [if_pos hgz] at hgf
          exact absurd hgf.symm hft
        · rw [if_neg hgz] at hgf
          rw [← hgf]
          exact (mem_afterUnlinkOf_iff files g (hgf ▸ hft)).mp hg
      · intro hm
        refine List.mem_map.mpr ⟨f, (mem_afterUnlinkOf_iff files f hft).mpr hm, if_neg hfz⟩
    · intro f hf
      obtain ⟨g, hg, hgf⟩ := List.mem_map.mp hf
      by_cases hgz : g = z
      · rw [if_pos hgz] at hgf
        exact Or.inl hgf.symm
      · rw [if_neg hgz] at hgf
        right
        rw [← hgf]
        exact (mem_afterUnlinkOf_iff files g
          (ne_target_of_mem_afterUnlinkOf files g hg)).mp hg
    · intro hnd
      refine List.Nodup.map_on ?_ (nodup_afterUnlinkOf files hnd)
      intro x hx y hy hxy
      by_cases hxz : x = z <;> by_cases hyz : y = z
      · rw [hxz, hyz]
      · rw [if_pos hxz, if_neg hyz] at hxy
        exact absurd hxy.symm (ne_target_of_mem_afterUnlinkOf files y hy)
      · rw [if_neg hxz, if_pos hyz] at hxy
        exact absurd hxy (ne_target_of_mem_afterUnlinkOf files x hx)
      · rw [if_neg hxz, if_neg hyz] at hxy
        exact hxy

/-- Witness for C10: the frame property applied to an untouched crx file of a
concrete directory listing. -/
theorem rename_zip_frame_witness :
    ∃ files2, (rename_zip_file (some ["app.crx", "b.zip", "c.zip"])).2 = some files2 ∧
      ("app.crx" ∈ files2 ↔ "app.crx" ∈ ["app.crx", "b.zip", "c.zip"]) := by
  obtain ⟨files2, hf, hframe, _, _⟩ :=
    rename_zip_frame ["app.crx", "b.zip", "c.zip"] "b.zip" (by decide)
  exact ⟨files2, hf, hframe "app.crx" (by decide) (by decide)⟩

end BuildPlugin
